import Mathlib

/-
Shallow embedding of tools/codegen/gen_backend_stubs.py.

The source file is a code generator: it validates a backend manifest
(a parsed YAML mapping), builds BackendIndex entries for the plain and
autograd coverage lists, and assembles three generated artifacts.

Modelling choices, each noted at its definition:
* Python values read from YAML become the inductive `Yaml`; Python dicts
  become `PyDict`, an insertion-ordered association list with Python dict
  semantics (insert replaces in place, pop removes the key).
* Collaborators that live outside this repository slice (the naming
  function `tools.codegen.api.dispatcher.name`, the generators in
  `tools.codegen.dest`, the registry loader) are parameters of the
  embedded functions.
* `OperatorName.parse` and `DispatchKey.parse` are collaborators as well;
  following the spec, which treats both as structured identifiers used
  only as lookup keys (with the autograd key "derived by a fixed naming
  transform, e.g. prefixing"), both identifier types are represented by
  their string rendering, so parsing a string is the identity on it.
* Python `assert` failures, TypeErrors and the like become `Except PyError`.
* CPython iterates a `set` in an order that depends on string hashing
  (randomized per process), so `list(set(xs))` is embedded as an
  unspecified enumeration parameter `setToList` constrained by `SetIterOk`:
  any duplicate-free listing of the members of `xs`.
-/

/-- A value read from the backend YAML manifest. -/
inductive Yaml where
  | null
  | str (s : String)
  | int (n : Int)
  | list (xs : List Yaml)
  | dict (xs : List (String × Yaml))

/-- The ways the Python source aborts: a failed `assert` (with its message),
a TypeError (e.g. `len(None)`), an AttributeError (parsing a non-string),
and a KeyError (mapping subscript misses). -/
inductive PyError where
  | assertError (msg : String)
  | typeError (msg : String)
  | attrError (msg : String)
  | keyError (msg : String)
deriving DecidableEq

/-- A Python dict with string keys: an insertion-ordered association list.
Keys are unique by construction of every dict the embedded code builds. -/
abbrev PyDict (α : Type) := List (String × α)

/-- Python `d[k]` lookup (first matching key). -/
def PyDict.get? {α : Type} : PyDict α → String → Option α
  | [], _ => none
  | (k1, v) :: d, k => if k1 = k then some v else PyDict.get? d k

/-- Python `k in d`. -/
def PyDict.contains {α : Type} (d : PyDict α) (k : String) : Bool :=
  (d.get? k).isSome

/-- Python `d[k] = v`: replace in place when the key exists, else append. -/
def PyDict.insert {α : Type} : PyDict α → String → α → PyDict α
  | [], k, v => [(k, v)]
  | (k1, v1) :: d, k, v =>
    if k1 = k then (k1, v) :: d else (k1, v1) :: PyDict.insert d k v

/-- Python `d.pop(k, default)`: the value (or `none`) and the dict without
the key. -/
def PyDict.pop {α : Type} : PyDict α → String → Option α × PyDict α
  | [], _ => (none, [])
  | (k1, v) :: d, k =>
    if k1 = k then (some v, d)
    else
      let r := PyDict.pop d k
      (r.1, (k1, v) :: r.2)

/-- Python `d.keys()`, in insertion order. -/
def PyDict.keys {α : Type} (d : PyDict α) : List String :=
  d.map Prod.fst

/-- Python `x is None`. -/
def Yaml.isNull : Yaml → Bool
  | .null => true
  | _ => false

/-- Python `isinstance(x, list)`. -/
def Yaml.isList : Yaml → Bool
  | .list _ => true
  | _ => false

/-- The Python type name used when rendering error messages
(`type(x)` paraphrased without the `<class ...>` decoration). -/
def pyTypeName : Yaml → String
  | .null => "NoneType"
  | .str _ => "str"
  | .int _ => "int"
  | .list _ => "list"
  | .dict _ => "dict"

/-- Python `str(x)` as interpolated into the f-string assert messages.
Container contents are paraphrased; the claims never inspect these
renderings beyond the field names around them. -/
def pyStr : Yaml → String
  | .null => "None"
  | .str s => s
  | .int n => toString n
  | .list xs => "[list of " ++ toString xs.length ++ " items]"
  | .dict xs => "[dict of " ++ toString xs.length ++ " items]"

/-- Python `len(x)`: defined for sequences and mappings, a TypeError on
`None` and on numbers (this is how `len(supported_autograd)` fails when
the manifest holds `autograd: null`, see claim C9). -/
def pyLen : Yaml → Except PyError Nat
  | .list xs => .ok xs.length
  | .str s => .ok s.length
  | .dict xs => .ok xs.length
  | .null => .error (.typeError "object of type NoneType has no len")
  | .int _ => .error (.typeError "object of type int has no len")

/-- Python iteration `for op in x` over the values `pyLen` accepts:
a list yields its items, a string its characters (as 1-character strings),
a dict its keys. -/
def pyElems : Yaml → List Yaml
  | .list xs => xs
  | .str s => s.data.map (fun c => .str c.toString)
  | .dict xs => xs.map (fun p => .str p.1)
  | _ => []

/-- The collaborator `OperatorName.parse(op)` applied to a manifest list
element. An operator name is represented by its string rendering (the
parse/str round trip of the real OperatorName), so parsing a string
returns it; a non-string fails as Python would when calling a string
method on it. -/
def opAsStr : Yaml → Except PyError String
  | .str s => .ok s
  | v => .error (.attrError ("OperatorName.parse expects a string, got " ++ pyTypeName v))

/-- `tools.codegen.model.NativeFunction`, reduced to the one field the
source reads: `func`, the operator schema handed to the naming
collaborator. The schema type is abstract. -/
structure NativeFunction (σ : Type) where
  func : σ
deriving DecidableEq

/-- One item of `grouped_native_functions`: a standalone NativeFunction or
a NativeFunctionsGroup, whose `functions()` lists its members. -/
inductive GroupedItem (σ : Type) where
  | nf (f : NativeFunction σ)
  | group (fs : List (NativeFunction σ))

/-- `NativeFunctionsGroup.functions()` flattening, matching the source's
`[f] if isinstance(f, NativeFunction) else list(f.functions())`. -/
def GroupedItem.functions {σ : Type} : GroupedItem σ → List (NativeFunction σ)
  | .nf f => [f]
  | .group fs => fs

/-- `tools.codegen.utils.concatMap`. -/
def concatMap {α β : Type} (f : α → List β) (xs : List α) : List β :=
  (xs.map f).flatten

/-- `tools.codegen.model.BackendMetadata`. -/
structure BackendMetadata where
  kernel : String
  structured : Bool
  external : Bool
deriving DecidableEq

/-- `tools.codegen.model.BackendIndex`. The DispatchKey is represented by
its name (see the header comment). -/
structure BackendIndex where
  dispatch_key : String
  use_out_as_primary : Bool
  index : PyDict BackendMetadata
deriving DecidableEq

/-- `tools.codegen.utils.Target`, the generation-mode tag consumed by
`dest.GenExternalAtenFallback`. -/
inductive Target where
  | NAMESPACED_DECLARATION
  | NAMESPACED_DEFINITION
  | REGISTRATION
deriving DecidableEq

/-- The contents of the three artifacts `run` writes, one record field per
template substitution key (`fm.write` itself is the external templated
writer). -/
structure Artifacts where
  generated_comment : String
  cpp_namespace : Yaml
  dispatch_xla_declarations : List String
  dispatch_aten_fallback_declarations : List String
  dispatch_aten_fallback_definitions : List String
  dispatch_registrations : List String
  dispatch_autograd_registrations : List String

/-- The dict comprehension building `native_functions_map` at the top of
`parse_backend_yaml`: operator name of each flattened function, mapped to
the function. `funcName` is the accessor `f.func.name`. -/
def native_functions_map {σ : Type} (funcName : σ → String)
    (grouped : List (GroupedItem σ)) : PyDict (NativeFunction σ) :=
  (concatMap GroupedItem.functions grouped).foldl
    (fun m f => m.insert (funcName f.func) f) []

/-- `valid_keys` from the source. -/
def valid_keys : List String :=
  ["backend", "cpp_namespace", "supported", "autograd"]

/-- The `for op in backend_ops` loop of `add_backend_index`: resolve each
name in the registry (a failed resolution is the source's
`assert op_name in native_functions_map`), compute the kernel symbol with
the naming collaborator `dispatcherName`, and record
`BackendMetadata(kernel, structured=False, external=True)`. -/
def buildMetadata {σ : Type} (dispatcherName : σ → String)
    (nfMap : PyDict (NativeFunction σ)) :
    List Yaml → PyDict BackendMetadata → Except PyError (PyDict BackendMetadata)
  | [], metadata => .ok metadata
  | op :: rest, metadata =>
    match opAsStr op with
    | .error e => .error e
    | .ok op_name =>
      match nfMap.get? op_name with
      | none => .error (.assertError ("Found an invalid operator name: " ++ op_name))
      | some f =>
        buildMetadata dispatcherName nfMap rest
          (metadata.insert op_name ⟨dispatcherName f.func, false, true⟩)

/-- `add_backend_index` from the source: derive the DispatchKey (the
autograd key prefixes "Autograd"), build the metadata mapping, refuse a
key already present (`assert backend_key not in backend_indices`, a bare
assert whose message is empty), and register
`BackendIndex(dispatch_key, use_out_as_primary=False, index=metadata)`. -/
def add_backend_index {σ : Type} (dispatcherName : σ → String)
    (nfMap : PyDict (NativeFunction σ)) (backend_indices : PyDict BackendIndex)
    (backend_ops : List Yaml) (backend : String) (is_autograd : Bool) :
    Except PyError (String × PyDict BackendIndex) :=
  let backend_key := if is_autograd then "Autograd" ++ backend else backend
  match buildMetadata dispatcherName nfMap backend_ops [] with
  | .error e => .error e
  | .ok metadata =>
    if backend_indices.contains backend_key then .error (.assertError "")
    else .ok (backend_key, backend_indices.insert backend_key ⟨backend_key, false, metadata⟩)

/-- Lines 77-85 of the source: register the plain index when
`len(supported) > 0`, then the autograd index when
`len(supported_autograd) > 0`. The lengths are taken with Python `len`,
in source order, because `supported_autograd` was never normalized or
type-checked (claim C9): `len` itself can raise. -/
def register_backend_indices {σ : Type} (dispatcherName : σ → String)
    (nfMap : PyDict (NativeFunction σ)) (backend_indices : PyDict BackendIndex)
    (backend : String) (supported supported_autograd : Yaml) :
    Except PyError (Option String × Option String × PyDict BackendIndex) :=
  match pyLen supported with
  | .error e => .error e
  | .ok nSup =>
    match (if nSup > 0 then
            (add_backend_index dispatcherName nfMap backend_indices
              (pyElems supported) backend false).map (fun r => (some r.1, r.2))
           else .ok (none, backend_indices) :
           Except PyError (Option String × PyDict BackendIndex)) with
    | .error e => .error e
    | .ok (backend_key, idx1) =>
      match pyLen supported_autograd with
      | .error e => .error e
      | .ok nAut =>
        match (if nAut > 0 then
                (add_backend_index dispatcherName nfMap idx1
                  (pyElems supported_autograd) backend true).map (fun r => (some r.1, r.2))
               else .ok (none, idx1) :
               Except PyError (Option String × PyDict BackendIndex)) with
        | .error e => .error e
        | .ok (autograd_key, idx2) => .ok (backend_key, autograd_key, idx2)

/-- `parse_backend_yaml`, after the collaborating YAML loader produced the
manifest mapping `yaml_values` and the registry loader produced
`grouped` and the initial `backend_indices` table. Faithful points:
the pops and `is None` defaults mirror lines 40-54; the second
`isinstance` assert re-checks `supported` instead of `supported_autograd`
exactly as line 50 of the source does; the unexpected-keys assert renders
the remaining keys and `valid_keys` comma-joined. -/
def parse_backend_yaml {σ : Type} (funcName dispatcherName : σ → String)
    (backend_yaml_path : String) (grouped : List (GroupedItem σ))
    (backend_indices : PyDict BackendIndex) (yaml_values : PyDict Yaml) :
    Except PyError (Option String × Option String × Yaml × PyDict BackendIndex) :=
  let nfMap := native_functions_map funcName grouped
  let pb := yaml_values.pop "backend"
  let backend := pb.1.getD Yaml.null
  if backend.isNull then
    .error (.assertError "You must provide a value for \"backend\"")
  else
    let pc := pb.2.pop "cpp_namespace"
    let cpp_namespace := pc.1.getD Yaml.null
    if cpp_namespace.isNull then
      .error (.assertError "You must provide a value for \"cpp_namespace\"")
    else
      let ps := pc.2.pop "supported"
      let supported0 := ps.1.getD (Yaml.list [])
      let supported := if supported0.isNull then Yaml.list [] else supported0
      if supported.isList then
        let pa := ps.2.pop "autograd"
        let supported_autograd := pa.1.getD (Yaml.list [])
        -- Line 50 of the source checks `supported` here, not
        -- `supported_autograd`; given the check just above, this branch
        -- is unreachable (claim C9).
        if supported.isList then
          if pa.2.length = 0 then
            match register_backend_indices dispatcherName nfMap backend_indices
                (pyStr backend) supported supported_autograd with
            | .error e => .error e
            | .ok (bk, ak, idx2) => .ok (bk, ak, cpp_namespace, idx2)
          else
            .error (.assertError (backend_yaml_path ++ " contains unexpected keys: " ++
              String.intercalate ", " pa.2.keys ++
              ". Only the following keys are supported: " ++
              String.intercalate ", " valid_keys))
        else
          .error (.assertError ("expected \"autograd\" to be a list, but got: " ++
            pyStr supported_autograd))
      else
        .error (.assertError ("expected \"supported\" to be a list, but got: " ++
          pyStr supported ++ " (of type " ++ pyTypeName supported ++ ")"))

/-- `run` (lines 101-177), from the point where the registry and manifest
are in memory. The collaborators `dest.compute_native_function_declaration`
(`computeDecl`), `dest.GenExternalAtenFallback` (`genFallback`) and the
file manager are parameters; the three `fm.write` substitution maps are
collected in one `Artifacts` record. `setToList` stands for CPython's
`list(set(...))` (and `list(set(a) | set(b))`, given to it as `a ++ b`):
an enumeration of the distinct elements in an order the language does not
pin down. When either dispatch key is `none`, nothing is generated. -/
def run {σ : Type} (funcName dispatcherName : σ → String)
    (computeDecl : GroupedItem σ → BackendIndex → List String)
    (genFallback : Target → BackendIndex → GroupedItem σ → List String)
    (setToList : List String → List String)
    (backend_yaml_path : String) (grouped : List (GroupedItem σ))
    (backend_indices0 : PyDict BackendIndex) (yaml_values : PyDict Yaml) :
    Except PyError (Option Artifacts) :=
  match parse_backend_yaml funcName dispatcherName backend_yaml_path grouped
      backend_indices0 yaml_values with
  | .error e => .error e
  | .ok (backend_key, autograd_key, cpp_namespace, backend_indices) =>
    match backend_key, autograd_key with
    | some backend_dispatch_key, some autograd_dispatch_key =>
      match backend_indices.get? backend_dispatch_key,
            backend_indices.get? autograd_dispatch_key with
      | some backend_index, some autograd_index =>
        .ok (some {
          generated_comment := "Autogenerated file by gen_backend_stubs.py. Do not edit directly!"
          cpp_namespace := cpp_namespace
          dispatch_xla_declarations := concatMap (fun f =>
            setToList (concatMap (fun bi => computeDecl f bi)
              [backend_index, autograd_index])) grouped
          dispatch_aten_fallback_declarations := setToList
            (concatMap (genFallback .NAMESPACED_DECLARATION backend_index) grouped ++
             concatMap (genFallback .NAMESPACED_DECLARATION autograd_index) grouped)
          dispatch_aten_fallback_definitions := setToList
            (concatMap (genFallback .NAMESPACED_DEFINITION backend_index) grouped ++
             concatMap (genFallback .NAMESPACED_DEFINITION autograd_index) grouped)
          dispatch_registrations :=
            concatMap (genFallback .REGISTRATION backend_index) grouped
          dispatch_autograd_registrations :=
            concatMap (genFallback .REGISTRATION autograd_index) grouped })
      | _, _ => .error (.keyError "DispatchKey not in backend_indices")
    | _, _ => .ok none

/-- The contract of CPython's `list(set(xs))` for a fixed (per-process)
string hashing: some duplicate-free enumeration of the members of `xs`. -/
def SetIterOk (f : List String → List String) : Prop :=
  ∀ xs, (f xs).Nodup ∧ ∀ a, a ∈ f xs ↔ a ∈ xs

/-- One valid set enumeration: keep the first occurrence of each element. -/
def dedupFirst : List String → List String
  | [] => []
  | x :: xs => x :: (dedupFirst xs).filter (fun y => y ≠ x)

/-- Another valid set enumeration: the reverse of `dedupFirst`. -/
def revDedup : List String → List String :=
  fun xs => (dedupFirst xs).reverse

/-- A well-formed manifest mapping, in the field order of the schema. -/
def mkManifest (b ns : String) (supY autY : Yaml) : PyDict Yaml :=
  [("backend", .str b), ("cpp_namespace", .str ns),
   ("supported", supY), ("autograd", autY)]

/-- A list of operator-name strings as a YAML sequence value. -/
def opList (ops : List String) : Yaml :=
  .list (ops.map .str)

/-- The metadata record the loop writes for a resolved operator name. -/
def mkMeta {σ : Type} (dN : σ → String) (f : NativeFunction σ) : BackendMetadata :=
  ⟨dN f.func, false, true⟩

/-- The properties claim C1 states of a registered BackendIndex: the key
set of its mapping is exactly the listed coverage set, each entry holds
the naming-collaborator symbol of the registry schema with
`structured=false, external=true`, and `use_out_as_primary=false`. -/
def GoodIndex {σ : Type} (dN : σ → String) (nfMap : PyDict (NativeFunction σ))
    (key : String) (ops : List String) (bi : BackendIndex) : Prop :=
  bi.dispatch_key = key ∧ bi.use_out_as_primary = false ∧
  (PyDict.keys bi.index).Nodup ∧
  (∀ k, (PyDict.get? bi.index k).isSome = true ↔ k ∈ ops) ∧
  (∀ k, k ∈ ops → ∃ f, PyDict.get? nfMap k = some f ∧
    PyDict.get? bi.index k = some (mkMeta dN f))

/-- The artifacts record `run` produces from the two live dispatch keys and
their indices; naming it keeps the statements below readable. -/
def mkArtifacts {σ : Type} (computeDecl : GroupedItem σ → BackendIndex → List String)
    (genFallback : Target → BackendIndex → GroupedItem σ → List String)
    (setToList : List String → List String) (grouped : List (GroupedItem σ))
    (ns : Yaml) (bIdx aIdx : BackendIndex) : Artifacts :=
  { generated_comment := "Autogenerated file by gen_backend_stubs.py. Do not edit directly!"
    cpp_namespace := ns
    dispatch_xla_declarations := concatMap (fun f =>
      setToList (concatMap (fun bi => computeDecl f bi) [bIdx, aIdx])) grouped
    dispatch_aten_fallback_declarations := setToList
      (concatMap (genFallback .NAMESPACED_DECLARATION bIdx) grouped ++
       concatMap (genFallback .NAMESPACED_DECLARATION aIdx) grouped)
    dispatch_aten_fallback_definitions := setToList
      (concatMap (genFallback .NAMESPACED_DEFINITION bIdx) grouped ++
       concatMap (genFallback .NAMESPACED_DEFINITION aIdx) grouped)
    dispatch_registrations := concatMap (genFallback .REGISTRATION bIdx) grouped
    dispatch_autograd_registrations := concatMap (genFallback .REGISTRATION aIdx) grouped }

/-- A small concrete registry: schemas are their own operator names. -/
def wGrouped : List (GroupedItem String) :=
  [.nf ⟨"add"⟩, .nf ⟨"sub"⟩, .group [⟨"mul"⟩, ⟨"mul_out"⟩]]

/-- A concrete declaration collaborator: one declaration line per function
of the group, mentioning the dispatch key. -/
def wCDecl : GroupedItem String → BackendIndex → List String :=
  fun f bi => (GroupedItem.functions f).map (fun g => g.func ++ "_" ++ bi.dispatch_key)

/-- A concrete fallback collaborator: one line per function of the group,
tagged by target kind and dispatch key. -/
def wGFall : Target → BackendIndex → GroupedItem String → List String :=
  fun t bi f => (GroupedItem.functions f).map (fun g =>
    (match t with
     | .NAMESPACED_DECLARATION => "fallback_decl "
     | .NAMESPACED_DEFINITION => "fallback_defn "
     | .REGISTRATION => "fallback_reg ") ++ g.func ++ " " ++ bi.dispatch_key)

/-- A concrete well-formed manifest. -/
def wManifest : PyDict Yaml :=
  mkManifest "XLA" "torch_xla" (opList ["add", "mul"]) (opList ["sub"])

/-- The declaration-header substitution list of a run result (empty when
nothing was generated). -/
def xlaDeclsOf : Except PyError (Option Artifacts) → List String
  | .ok (some a) => a.dispatch_xla_declarations
  | _ => []

/-- The fallback-declaration substitution list of a run result. -/
def fallbackDeclsOf : Except PyError (Option Artifacts) → List String
  | .ok (some a) => a.dispatch_aten_fallback_declarations
  | _ => []

/-- The plain registration substitution list of a run result. -/
def registrationsOf : Except PyError (Option Artifacts) → List String
  | .ok (some a) => a.dispatch_registrations
  | _ => []

/-- Order-insensitive agreement of two artifact records: identical
template text except that set-deduplicated lists may be permuted. -/
def ArtifactsSetEquiv (a1 a2 : Artifacts) : Prop :=
  a1.generated_comment = a2.generated_comment ∧
  a1.cpp_namespace = a2.cpp_namespace ∧
  a1.dispatch_xla_declarations.Perm a2.dispatch_xla_declarations ∧
  a1.dispatch_aten_fallback_declarations.Perm a2.dispatch_aten_fallback_declarations ∧
  a1.dispatch_aten_fallback_definitions.Perm a2.dispatch_aten_fallback_definitions ∧
  a1.dispatch_registrations = a2.dispatch_registrations ∧
  a1.dispatch_autograd_registrations = a2.dispatch_autograd_registrations

/-- Agreement of two whole run results up to set-iteration order. -/
def RunEquiv : Except PyError (Option Artifacts) → Except PyError (Option Artifacts) → Prop
  | .error e1, .error e2 => e1 = e2
  | .ok none, .ok none => True
  | .ok (some a1), .ok (some a2) => ArtifactsSetEquiv a1 a2
  | _, _ => False


/-! ### Dictionary lemmas -/

theorem PyDict.keys_cons {α : Type} (k1 : String) (v1 : α) (d : PyDict α) :
    PyDict.keys ((k1, v1) :: d) = k1 :: PyDict.keys d := rfl

theorem PyDict.get?_insert {α : Type} (d : PyDict α) (k k2 : String) (v : α) :
    PyDict.get? (PyDict.insert d k v) k2 = if k2 = k then some v else PyDict.get? d k2 := by
  induction d with
  | nil =>
    simp only [PyDict.insert, PyDict.get?]
    by_cases h : k = k2
    · simp [h]
    · simp [h, Ne.symm h]
  | cons p d ih =>
    obtain ⟨k1, v1⟩ := p
    by_cases h1 : k1 = k
    · subst h1
      simp only [PyDict.insert, if_pos rfl, PyDict.get?]
      by_cases h2 : k1 = k2
      · subst h2
        simp
      · simp [h2, Ne.symm h2]
    · simp only [PyDict.insert, if_neg h1, PyDict.get?]
      by_cases h3 : k1 = k2
      · subst h3
        simp [h1, ih]
      · simp [h3, ih]

theorem PyDict.mem_keys_iff_get? {α : Type} (d : PyDict α) (k : String) :
    k ∈ PyDict.keys d ↔ (PyDict.get? d k).isSome = true := by
  induction d with
  | nil => simp [PyDict.keys, PyDict.get?]
  | cons p d ih =>
    obtain ⟨k1, v1⟩ := p
    rw [PyDict.keys_cons]
    simp only [List.mem_cons, PyDict.get?]
    by_cases h1 : k1 = k
    · simp [h1]
    · simp only [if_neg h1, ih]
      constructor
      · rintro (h | h)
        · exact absurd h.symm h1
        · exact h
      · exact Or.inr

theorem PyDict.keys_insert {α : Type} (d : PyDict α) (k : String) (v : α) :
    PyDict.keys (PyDict.insert d k v) =
      if (PyDict.get? d k).isSome then PyDict.keys d else PyDict.keys d ++ [k] := by
  induction d with
  | nil => simp [PyDict.insert, PyDict.keys, PyDict.get?]
  | cons p d ih =>
    obtain ⟨k1, v1⟩ := p
    simp only [PyDict.insert, PyDict.get?]
    by_cases h1 : k1 = k
    · simp [h1, PyDict.keys_cons]
    · simp only [if_neg h1]
      rw [PyDict.keys_cons, PyDict.keys_cons, ih]
      by_cases h2 : (PyDict.get? d k).isSome
      · simp [h2]
      · simp [h2]

theorem PyDict.nodup_keys_insert {α : Type} (d : PyDict α) (k : String) (v : α)
    (h : (PyDict.keys d).Nodup) : (PyDict.keys (PyDict.insert d k v)).Nodup := by
  rw [PyDict.keys_insert]
  by_cases h2 : (PyDict.get? d k).isSome
  · simpa [h2] using h
  · have hk : k ∉ PyDict.keys d := fun hmem => h2 ((PyDict.mem_keys_iff_get? d k).mp hmem)
    simp only [if_neg h2]
    simpa [List.nodup_append] using ⟨h, hk⟩

theorem PyDict.insert_eq_self {α : Type} (d : PyDict α) (k : String) (v : α)
    (hnd : (PyDict.keys d).Nodup) (h : PyDict.get? d k = some v) :
    PyDict.insert d k v = d := by
  induction d with
  | nil => simp [PyDict.get?] at h
  | cons p d ih =>
    obtain ⟨k1, v1⟩ := p
    simp only [PyDict.get?] at h
    simp only [PyDict.insert]
    by_cases h1 : k1 = k
    · simp only [if_pos h1] at h ⊢
      simp only [Option.some.injEq] at h
      rw [h]
    · simp only [if_neg h1] at h ⊢
      have hnd2 : (PyDict.keys d).Nodup := by
        rw [PyDict.keys_cons] at hnd
        exact (List.nodup_cons.mp hnd).2
      rw [ih hnd2 h]

theorem PyDict.count_keys_eq_one {α : Type} (d : PyDict α) (k : String)
    (hnd : (PyDict.keys d).Nodup) (h : (PyDict.get? d k).isSome = true) :
    (PyDict.keys d).count k = 1 := by
  have hmem : k ∈ PyDict.keys d := (PyDict.mem_keys_iff_get? d k).mpr h
  have hle : (PyDict.keys d).count k ≤ 1 := List.nodup_iff_count_le_one.mp hnd k
  have hpos : 0 < (PyDict.keys d).count k := List.count_pos_iff.mpr hmem
  omega

/-! ### buildMetadata lemmas -/

theorem buildMetadata_append {σ : Type} (dN : σ → String)
    (nfMap : PyDict (NativeFunction σ)) (l1 l2 : List Yaml) (acc : PyDict BackendMetadata) :
    buildMetadata dN nfMap (l1 ++ l2) acc =
      match buildMetadata dN nfMap l1 acc with
      | .error e => .error e
      | .ok d => buildMetadata dN nfMap l2 d := by
  induction l1 generalizing acc with
  | nil => simp [buildMetadata]
  | cons op rest ih =>
    simp only [List.cons_append, buildMetadata]
    cases hs : opAsStr op with
    | error e => simp
    | ok s =>
      cases hg : PyDict.get? nfMap s with
      | none => simp [hg]
      | some f => simp [hg, ih]

theorem buildMetadata_ok_char {σ : Type} (dN : σ → String)
    (nfMap : PyDict (NativeFunction σ)) (ops : List String) (acc : PyDict BackendMetadata)
    (hres : ∀ op ∈ ops, (PyDict.get? nfMap op).isSome = true) :
    ∃ d, buildMetadata dN nfMap (ops.map .str) acc = .ok d ∧
      (∀ k, PyDict.get? d k =
        if k ∈ ops then (PyDict.get? nfMap k).map (mkMeta dN) else PyDict.get? acc k) ∧
      ((PyDict.keys acc).Nodup → (PyDict.keys d).Nodup) := by
  induction ops generalizing acc with
  | nil => exact ⟨acc, rfl, by simp, fun h => h⟩
  | cons op rest ih =>
    have hop : (PyDict.get? nfMap op).isSome = true := hres op (by simp)
    obtain ⟨f, hf⟩ := Option.isSome_iff_exists.mp hop
    have hrest : ∀ o ∈ rest, (PyDict.get? nfMap o).isSome = true :=
      fun o ho => hres o (by simp [ho])
    obtain ⟨d, hd, hchar, hnd⟩ := ih (PyDict.insert acc op (mkMeta dN f)) hrest
    refine ⟨d, ?_, ?_, fun h => hnd (PyDict.nodup_keys_insert _ _ _ h)⟩
    · simp only [List.map_cons, buildMetadata, opAsStr, hf]
      exact hd
    · intro k
      rw [hchar k]
      by_cases hk : k ∈ rest
      · simp [hk]
      · simp only [if_neg hk, PyDict.get?_insert]
        by_cases hk2 : k = op
        · subst hk2
          simp [hf, mkMeta]
        · simp [hk2, hk]

theorem buildMetadata_err {σ : Type} (dN : σ → String)
    (nfMap : PyDict (NativeFunction σ)) (ops : List String) (acc : PyDict BackendMetadata)
    (hbad : ∃ op ∈ ops, PyDict.get? nfMap op = none) :
    ∃ op, op ∈ ops ∧ PyDict.get? nfMap op = none ∧
      buildMetadata dN nfMap (ops.map .str) acc =
        .error (.assertError ("Found an invalid operator name: " ++ op)) := by
  induction ops generalizing acc with
  | nil => simp at hbad
  | cons op rest ih =>
    cases hop : PyDict.get? nfMap op with
    | none =>
      refine ⟨op, by simp, hop, ?_⟩
      simp [buildMetadata, opAsStr, hop]
    | some f =>
      have hbad2 : ∃ o ∈ rest, PyDict.get? nfMap o = none := by
        obtain ⟨o, ho, hno⟩ := hbad
        rcases List.mem_cons.mp ho with h | h
        · subst h
          rw [hop] at hno
          cases hno
        · exact ⟨o, h, hno⟩
      obtain ⟨o2, ho2, hno2, heq⟩ := ih (PyDict.insert acc op (mkMeta dN f)) hbad2
      refine ⟨o2, by simp [ho2], hno2, ?_⟩
      simpa [buildMetadata, opAsStr, hop, mkMeta] using heq

/-! ### add_backend_index and register_backend_indices lemmas -/

theorem autograd_key_ne (b : String) : ("Autograd" ++ b) ≠ b := by
  intro h
  have hlen := congrArg String.length h
  rw [String.length_append] at hlen
  have h8 : "Autograd".length = 8 := rfl
  omega

theorem add_backend_index_ok {σ : Type} (dN : σ → String)
    (nfMap : PyDict (NativeFunction σ)) (idx : PyDict BackendIndex)
    (ops : List String) (b : String) (auto : Bool)
    (hres : ∀ op ∈ ops, (PyDict.get? nfMap op).isSome = true)
    (hfresh : PyDict.get? idx (if auto then "Autograd" ++ b else b) = none) :
    ∃ d, add_backend_index dN nfMap idx (ops.map .str) b auto =
        .ok ((if auto then "Autograd" ++ b else b),
             PyDict.insert idx (if auto then "Autograd" ++ b else b)
               ⟨(if auto then "Autograd" ++ b else b), false, d⟩) ∧
      (∀ k, PyDict.get? d k =
        if k ∈ ops then (PyDict.get? nfMap k).map (mkMeta dN) else none) ∧
      (PyDict.keys d).Nodup := by
  obtain ⟨d, hd, hchar, hnd⟩ := buildMetadata_ok_char dN nfMap ops [] hres
  refine ⟨d, ?_, ?_, hnd (by simp [PyDict.keys])⟩
  · simp [add_backend_index, hd, PyDict.contains, hfresh]
  · intro k
    rw [hchar k]
    by_cases hk : k ∈ ops <;> simp [hk, PyDict.get?]

theorem add_backend_index_dup {σ : Type} (dN : σ → String)
    (nfMap : PyDict (NativeFunction σ)) (idx : PyDict BackendIndex)
    (ops : List String) (b : String) (auto : Bool)
    (hres : ∀ op ∈ ops, (PyDict.get? nfMap op).isSome = true)
    (hdup : (PyDict.get? idx (if auto then "Autograd" ++ b else b)).isSome = true) :
    add_backend_index dN nfMap idx (ops.map .str) b auto = .error (.assertError "") := by
  obtain ⟨d, hd, -, -⟩ := buildMetadata_ok_char dN nfMap ops [] hres
  simp [add_backend_index, hd, PyDict.contains, hdup]

theorem add_backend_index_ok_inv {σ : Type} (dN : σ → String)
    (nfMap : PyDict (NativeFunction σ)) (idx : PyDict BackendIndex)
    (ops : List Yaml) (b k : String) (auto : Bool) (idx2 : PyDict BackendIndex)
    (h : add_backend_index dN nfMap idx ops b auto = .ok (k, idx2)) :
    k = (if auto then "Autograd" ++ b else b) ∧ PyDict.get? idx k = none ∧
      ∃ d, idx2 = PyDict.insert idx k ⟨k, false, d⟩ := by
  unfold add_backend_index at h
  cases hb : buildMetadata dN nfMap ops [] with
  | error e => rw [hb] at h; cases h
  | ok d =>
    rw [hb] at h
    simp only [PyDict.contains] at h
    by_cases hc : (PyDict.get? idx (if auto then "Autograd" ++ b else b)).isSome
    · simp [hc] at h
    · simp only [hc] at h
      rw [if_neg (by simp [hc])] at h
      cases h
      exact ⟨rfl, Option.not_isSome_iff_eq_none.mp hc, d, rfl⟩

theorem goodIndex_mk {σ : Type} (dN : σ → String) (nfMap : PyDict (NativeFunction σ))
    (key : String) (ops : List String) (d : PyDict BackendMetadata)
    (hops : ∀ op ∈ ops, (PyDict.get? nfMap op).isSome = true)
    (hchar : ∀ k, PyDict.get? d k =
      if k ∈ ops then (PyDict.get? nfMap k).map (mkMeta dN) else none)
    (hnd : (PyDict.keys d).Nodup) :
    GoodIndex dN nfMap key ops ⟨key, false, d⟩ := by
  refine ⟨rfl, rfl, hnd, ?_, ?_⟩
  · intro k
    rw [hchar k]
    by_cases hk : k ∈ ops
    · simp [hk, hops k hk]
    · simp [hk]
  · intro k hk
    obtain ⟨f, hf⟩ := Option.isSome_iff_exists.mp (hops k hk)
    exact ⟨f, hf, by simp [hchar k, hk, hf]⟩

theorem register_opList_char {σ : Type} (dN : σ → String)
    (nfMap : PyDict (NativeFunction σ)) (idx : PyDict BackendIndex) (b : String)
    (sup aut : List String)
    (hres : ∀ op ∈ sup ++ aut, (PyDict.get? nfMap op).isSome = true)
    (hfb : PyDict.get? idx b = none)
    (hfa : PyDict.get? idx ("Autograd" ++ b) = none) :
    ∃ idx2,
      register_backend_indices dN nfMap idx b (opList sup) (opList aut) =
        .ok ((if sup = [] then none else some b),
             (if aut = [] then none else some ("Autograd" ++ b)), idx2) ∧
      (∀ dk, dk ≠ b → dk ≠ "Autograd" ++ b →
        PyDict.get? idx2 dk = PyDict.get? idx dk) ∧
      (sup = [] → aut = [] → idx2 = idx) ∧
      (sup = [] → PyDict.get? idx2 b = PyDict.get? idx b) ∧
      (aut = [] → PyDict.get? idx2 ("Autograd" ++ b) =
        PyDict.get? idx ("Autograd" ++ b)) ∧
      (sup ≠ [] → ∃ bi, PyDict.get? idx2 b = some bi ∧ GoodIndex dN nfMap b sup bi) ∧
      (aut ≠ [] → ∃ ai, PyDict.get? idx2 ("Autograd" ++ b) = some ai ∧
        GoodIndex dN nfMap ("Autograd" ++ b) aut ai) := by
  have hkey : ("Autograd" ++ b) ≠ b := autograd_key_ne b
  have hressup : ∀ op ∈ sup, (PyDict.get? nfMap op).isSome = true :=
    fun op ho => hres op (List.mem_append_left _ ho)
  have hresaut : ∀ op ∈ aut, (PyDict.get? nfMap op).isSome = true :=
    fun op ho => hres op (List.mem_append_right _ ho)
  cases sup with
  | nil =>
    cases aut with
    | nil =>
      exact ⟨idx, rfl, fun _ _ _ => rfl, fun _ _ => rfl, fun _ => rfl, fun _ => rfl,
        fun h => absurd rfl h, fun h => absurd rfl h⟩
    | cons a0 arest =>
      obtain ⟨dA, haddA, hcharA, hndA⟩ :=
        add_backend_index_ok dN nfMap idx (a0 :: arest) b true hresaut (by simpa using hfa)
      refine ⟨PyDict.insert idx ("Autograd" ++ b) ⟨"Autograd" ++ b, false, dA⟩,
        ?_, ?_, ?_, ?_, ?_, fun h => absurd rfl h, ?_⟩
      · simp only [register_backend_indices, opList, pyLen, pyElems, List.length_map,
          List.map_nil, List.length_nil, gt_iff_lt, Nat.lt_irrefl, if_false,
          List.length_cons, Nat.succ_pos, if_true]
        rw [haddA]
        rfl
      · intro dk h1 h2
        rw [PyDict.get?_insert]
        simp [h2]
      · intro _ h
        cases h
      · intro _
        rw [PyDict.get?_insert, if_neg (Ne.symm hkey)]
      · intro h
        cases h
      · intro _
        refine ⟨⟨"Autograd" ++ b, false, dA⟩, ?_,
          goodIndex_mk dN nfMap _ _ dA hresaut hcharA hndA⟩
        rw [PyDict.get?_insert, if_pos rfl]
  | cons s0 srest =>
    obtain ⟨dS, haddS, hcharS, hndS⟩ :=
      add_backend_index_ok dN nfMap idx (s0 :: srest) b false hressup (by simpa using hfb)
    cases aut with
    | nil =>
      refine ⟨PyDict.insert idx b ⟨b, false, dS⟩, ?_, ?_, ?_, ?_, ?_, ?_,
        fun h => absurd rfl h⟩
      · simp only [register_backend_indices, opList, pyLen, pyElems, List.length_map,
          List.map_nil, List.length_nil, gt_iff_lt, Nat.lt_irrefl, if_false,
          List.length_cons, Nat.succ_pos, if_true]
        rw [haddS]
        rfl
      · intro dk h1 h2
        rw [PyDict.get?_insert]
        simp [h1]
      · intro h
        cases h
      · intro h
        cases h
      · intro _
        rw [PyDict.get?_insert, if_neg hkey]
      · intro _
        refine ⟨⟨b, false, dS⟩, ?_, goodIndex_mk dN nfMap _ _ dS hressup hcharS hndS⟩
        rw [PyDict.get?_insert, if_pos rfl]
    | cons a0 arest =>
      have hfa1 : PyDict.get? (PyDict.insert idx b ⟨b, false, dS⟩) ("Autograd" ++ b) = none := by
        rw [PyDict.get?_insert, if_neg hkey]
        exact hfa
      obtain ⟨dA, haddA, hcharA, hndA⟩ :=
        add_backend_index_ok dN nfMap (PyDict.insert idx b ⟨b, false, dS⟩)
          (a0 :: arest) b true hresaut (by simpa using hfa1)
      refine ⟨PyDict.insert (PyDict.insert idx b ⟨b, false, dS⟩) ("Autograd" ++ b)
          ⟨"Autograd" ++ b, false, dA⟩, ?_, ?_, ?_, ?_, ?_, ?_, ?_⟩
      · simp only [register_backend_indices, opList, pyLen, pyElems, List.length_map,
          List.length_cons, gt_iff_lt, Nat.succ_pos, if_true]
        rw [haddS]
        show (match Except.map (fun r => (some r.1, r.2))
            (add_backend_index dN nfMap (PyDict.insert idx b ⟨b, false, dS⟩)
              (List.map Yaml.str (a0 :: arest)) b true) with
          | Except.error e => Except.error e
          | Except.ok (autograd_key, idx2) => Except.ok (some b, autograd_key, idx2)) = _
        rw [haddA]
        rfl
      · intro dk h1 h2
        rw [PyDict.get?_insert, if_neg h2, PyDict.get?_insert, if_neg h1]
      · intro h
        cases h
      · intro h
        cases h
      · intro h
        cases h
      · intro _
        refine ⟨⟨b, false, dS⟩, ?_, goodIndex_mk dN nfMap _ _ dS hressup hcharS hndS⟩
        rw [PyDict.get?_insert, if_neg (Ne.symm hkey), PyDict.get?_insert, if_pos rfl]
      · intro _
        refine ⟨⟨"Autograd" ++ b, false, dA⟩, ?_,
          goodIndex_mk dN nfMap _ _ dA hresaut hcharA hndA⟩
        rw [PyDict.get?_insert, if_pos rfl]

/-! ### parse_backend_yaml and run lemmas -/

theorem parse_backend_yaml_mkManifest {σ : Type} (fN dN : σ → String)
    (path : String) (grouped : List (GroupedItem σ)) (idx : PyDict BackendIndex)
    (b ns : String) (sup : List Yaml) (autY : Yaml) :
    parse_backend_yaml fN dN path grouped idx (mkManifest b ns (.list sup) autY) =
      match register_backend_indices dN (native_functions_map fN grouped) idx b
          (.list sup) autY with
      | .error e => .error e
      | .ok (bk, ak, idx2) => .ok (bk, ak, .str ns, idx2) := rfl

theorem PyDict.get?_insert_self {α : Type} (d : PyDict α) (k : String) (v : α) :
    PyDict.get? (PyDict.insert d k v) k = some v := by
  rw [PyDict.get?_insert, if_pos rfl]

theorem PyDict.isSome_get?_insert {α : Type} (d : PyDict α) (k k2 : String) (v : α)
    (h : (PyDict.get? d k2).isSome = true) :
    (PyDict.get? (PyDict.insert d k v) k2).isSome = true := by
  rw [PyDict.get?_insert]
  by_cases h2 : k2 = k
  · simp [h2]
  · simpa [h2] using h

theorem register_ok_keys {σ : Type} (dN : σ → String)
    (nfMap : PyDict (NativeFunction σ)) (idx : PyDict BackendIndex) (b : String)
    (supY autY : Yaml) (bko ako : Option String) (idx2 : PyDict BackendIndex)
    (h : register_backend_indices dN nfMap idx b supY autY = .ok (bko, ako, idx2)) :
    (∀ bk, bko = some bk → (PyDict.get? idx2 bk).isSome = true) ∧
    (∀ ak, ako = some ak → (PyDict.get? idx2 ak).isSome = true) := by
  unfold register_backend_indices at h
  split at h
  · cases h
  rename_i nSup hL1
  split at h
  · cases h
  rename_i bko idx1 hstep1
  split at h
  · cases h
  rename_i nAut hL2
  split at h
  · cases h
  rename_i ako idx2 hstep2
  cases h
  have hplain : (bko = none ∧ idx1 = idx) ∨
      ∃ k1, bko = some k1 ∧ (PyDict.get? idx1 k1).isSome = true := by
    split at hstep1
    · cases hA1 : add_backend_index dN nfMap idx (pyElems supY) b false with
      | error e =>
        rw [hA1] at hstep1
        simp [Except.map] at hstep1
      | ok r1 =>
        obtain ⟨k1, i1⟩ := r1
        rw [hA1] at hstep1
        simp only [Except.map, Except.ok.injEq, Prod.mk.injEq] at hstep1
        obtain ⟨hb1, hi1⟩ := hstep1
        obtain ⟨-, -, d1, hins⟩ :=
          add_backend_index_ok_inv dN nfMap idx (pyElems supY) b k1 false i1 hA1
        refine Or.inr ⟨k1, hb1.symm, ?_⟩
        rw [← hi1, hins, PyDict.get?_insert_self]
        rfl
    · simp only [Except.ok.injEq, Prod.mk.injEq] at hstep1
      exact Or.inl ⟨hstep1.1.symm, hstep1.2.symm⟩
  have hauto : (ako = none ∧ idx2 = idx1) ∨
      ∃ k2 d2, ako = some k2 ∧
        idx2 = PyDict.insert idx1 k2 ⟨k2, false, d2⟩ := by
    split at hstep2
    · cases hA2 : add_backend_index dN nfMap idx1 (pyElems autY) b true with
      | error e =>
        rw [hA2] at hstep2
        simp [Except.map] at hstep2
      | ok r2 =>
        obtain ⟨k2, i2⟩ := r2
        rw [hA2] at hstep2
        simp only [Except.map, Except.ok.injEq, Prod.mk.injEq] at hstep2
        obtain ⟨hb2, hi2⟩ := hstep2
        obtain ⟨hkeq, -, d2, hins⟩ :=
          add_backend_index_ok_inv dN nfMap idx1 (pyElems autY) b k2 true i2 hA2
        exact Or.inr ⟨k2, d2, hb2.symm, by rw [← hi2, hins]⟩
    · simp only [Except.ok.injEq, Prod.mk.injEq] at hstep2
      exact Or.inl ⟨hstep2.1.symm, hstep2.2.symm⟩
  constructor
  · rintro bk hbk
    subst hbk
    rcases hplain with ⟨hno, -⟩ | ⟨k1, hk1, hmem1⟩
    · cases hno
    · obtain rfl : k1 = bk := by cases hk1; rfl
      rcases hauto with ⟨-, rfl⟩ | ⟨k2, d2, -, rfl⟩
      · exact hmem1
      · exact PyDict.isSome_get?_insert _ _ _ _ hmem1
  · rintro ak hak
    subst hak
    rcases hauto with ⟨hno, -⟩ | ⟨k2, d2, hk2, rfl⟩
    · cases hno
    · obtain rfl : k2 = ak := by cases hk2; rfl
      rw [PyDict.get?_insert_self]
      rfl

theorem parse_ok_keys {σ : Type} (fN dN : σ → String) (path : String)
    (grouped : List (GroupedItem σ)) (idx : PyDict BackendIndex) (m : PyDict Yaml)
    (bko ako : Option String) (ns : Yaml) (idx2 : PyDict BackendIndex)
    (h : parse_backend_yaml fN dN path grouped idx m = .ok (bko, ako, ns, idx2)) :
    (∀ bk, bko = some bk → (PyDict.get? idx2 bk).isSome = true) ∧
    (∀ ak, ako = some ak → (PyDict.get? idx2 ak).isSome = true) := by
  simp only [parse_backend_yaml] at h
  split at h
  · cases h
  split at h
  · cases h
  split at h
  · split at h
    case isFalse => cases h
    split at h
    case isFalse => cases h
    split at h
    · cases h
    rename_i x bk1 ak1 i2 heq
    cases h
    exact register_ok_keys _ _ _ _ _ _ _ _ _ heq
  · split at h
    case isFalse => cases h
    split at h
    case isFalse => cases h
    split at h
    · cases h
    rename_i x bk1 ak1 i2 heq
    cases h
    exact register_ok_keys _ _ _ _ _ _ _ _ _ heq

theorem run_eq_of_parse {σ : Type} (fN dN : σ → String)
    (computeDecl : GroupedItem σ → BackendIndex → List String)
    (genFallback : Target → BackendIndex → GroupedItem σ → List String)
    (setToList : List String → List String) (path : String)
    (grouped : List (GroupedItem σ)) (idx0 : PyDict BackendIndex) (m : PyDict Yaml)
    (bk ak : String) (ns : Yaml) (idx2 : PyDict BackendIndex) (bIdx aIdx : BackendIndex)
    (hp : parse_backend_yaml fN dN path grouped idx0 m = .ok (some bk, some ak, ns, idx2))
    (hb : PyDict.get? idx2 bk = some bIdx)
    (ha : PyDict.get? idx2 ak = some aIdx) :
    run fN dN computeDecl genFallback setToList path grouped idx0 m =
      .ok (some (mkArtifacts computeDecl genFallback setToList grouped ns bIdx aIdx)) := by
  unfold run
  rw [hp]
  simp only [hb, ha]
  rfl

theorem run_ok_inv {σ : Type} (fN dN : σ → String)
    (computeDecl : GroupedItem σ → BackendIndex → List String)
    (genFallback : Target → BackendIndex → GroupedItem σ → List String)
    (setToList : List String → List String) (path : String)
    (grouped : List (GroupedItem σ)) (idx0 : PyDict BackendIndex)
    (m : PyDict Yaml) (a : Artifacts)
    (h : run fN dN computeDecl genFallback setToList path grouped idx0 m = .ok (some a)) :
    ∃ bk ak ns idx2 bIdx aIdx,
      parse_backend_yaml fN dN path grouped idx0 m = .ok (some bk, some ak, ns, idx2) ∧
      PyDict.get? idx2 bk = some bIdx ∧ PyDict.get? idx2 ak = some aIdx ∧
      a = mkArtifacts computeDecl genFallback setToList grouped ns bIdx aIdx := by
  unfold run at h
  split at h
  · cases h
  rename_i bko ako ns idx2 hp
  split at h
  · rename_i bk ak
    split at h
    · rename_i bIdx aIdx hb ha
      refine ⟨bk, ak, ns, idx2, bIdx, aIdx, hp, hb, ha, ?_⟩
      simp only [Except.ok.injEq, Option.some.injEq] at h
      exact h.symm
    · cases h
  · simp at h

/-! ### Set-enumeration lemmas -/

theorem mem_dedupFirst (a : String) : ∀ xs : List String, a ∈ dedupFirst xs ↔ a ∈ xs := by
  intro xs
  induction xs with
  | nil => simp [dedupFirst]
  | cons x t ih =>
    simp only [dedupFirst, List.mem_cons, List.mem_filter, ih, decide_eq_true_eq]
    constructor
    · rintro (h | ⟨h, -⟩)
      · exact Or.inl h
      · exact Or.inr h
    · rintro (h | h)
      · exact Or.inl h
      · by_cases hx : a = x
        · exact Or.inl hx
        · exact Or.inr ⟨h, hx⟩

theorem nodup_dedupFirst : ∀ xs : List String, (dedupFirst xs).Nodup
  | [] => by simp [dedupFirst]
  | x :: t => by
    simp only [dedupFirst, List.nodup_cons]
    refine ⟨fun hmem => ?_, (nodup_dedupFirst t).filter _⟩
    rw [List.mem_filter] at hmem
    simp at hmem

theorem setIterOk_dedupFirst : SetIterOk dedupFirst :=
  fun xs => ⟨nodup_dedupFirst xs, fun a => mem_dedupFirst a xs⟩

theorem setIterOk_revDedup : SetIterOk revDedup := by
  intro xs
  refine ⟨?_, fun a => ?_⟩
  · simpa [revDedup] using nodup_dedupFirst xs
  · simpa [revDedup] using mem_dedupFirst a xs

theorem setIterOk_perm {s1 s2 : List String → List String}
    (h1 : SetIterOk s1) (h2 : SetIterOk s2) (xs : List String) :
    (s1 xs).Perm (s2 xs) := by
  refine (List.perm_ext_iff_of_nodup (h1 xs).1 (h2 xs).1).mpr fun a => ?_
  rw [(h1 xs).2 a, (h2 xs).2 a]

theorem concatMap_perm {α : Type} (f g : α → List String) (l : List α)
    (h : ∀ x ∈ l, (f x).Perm (g x)) : (concatMap f l).Perm (concatMap g l) := by
  induction l with
  | nil => simp [concatMap]
  | cons x t ih =>
    have hx : (f x).Perm (g x) := h x (by simp)
    have ht : (concatMap f t).Perm (concatMap g t) :=
      ih fun y hy => h y (by simp [hy])
    simpa [concatMap] using hx.append ht

/-! ### Concrete instantiation used by counterexamples and witnesses -/

/-! ### Claim theorems -/

/-- C9 (code bug evaluation): the source validates `supported` twice and
never re-checks `supported_autograd`. With `autograd: null` the run dies
with a TypeError at `len(supported_autograd)` instead of treating null as
the empty list; with `autograd` a string (not a sequence) validation
passes silently and no schema error naming `autograd` is raised. -/
theorem C9_autograd_validation_bug :
    parse_backend_yaml (σ := String) id id "backend.yaml" wGrouped []
        (mkManifest "XLA" "torch_xla" (.list []) Yaml.null) =
      .error (.typeError "object of type NoneType has no len") ∧
    parse_backend_yaml (σ := String) id id "backend.yaml" wGrouped []
        (mkManifest "XLA" "torch_xla" (.list []) (.str "")) =
      .ok (none, none, .str "torch_xla", []) :=
  ⟨rfl, rfl⟩

/-- C7: a manifest missing `backend` or `cpp_namespace` is rejected with
the corresponding required-field message, and a manifest holding any keys
beyond the four schema fields is rejected with a message enumerating the
offending keys; in every case `parse_backend_yaml` returns an error, so
no index is registered. -/
theorem C7_manifest_schema_validation {σ : Type} (fN dN : σ → String)
    (path : String) (grouped : List (GroupedItem σ)) (idx : PyDict BackendIndex) :
    (∀ m : PyDict Yaml, ((PyDict.pop m "backend").1.getD Yaml.null).isNull = true →
      parse_backend_yaml fN dN path grouped idx m =
        .error (.assertError "You must provide a value for \"backend\"")) ∧
    (∀ m : PyDict Yaml, ((PyDict.pop m "backend").1.getD Yaml.null).isNull = false →
      ((PyDict.pop (PyDict.pop m "backend").2 "cpp_namespace").1.getD Yaml.null).isNull = true →
      parse_backend_yaml fN dN path grouped idx m =
        .error (.assertError "You must provide a value for \"cpp_namespace\"")) ∧
    (∀ (b ns : String) (sup aut : List Yaml) (extra : PyDict Yaml),
      extra ≠ [] →
      (∀ k ∈ PyDict.keys extra, k ∉ valid_keys) →
      parse_backend_yaml fN dN path grouped idx
          (mkManifest b ns (.list sup) (.list aut) ++ extra) =
        .error (.assertError (path ++ " contains unexpected keys: " ++
          String.intercalate ", " (PyDict.keys extra) ++
          ". Only the following keys are supported: " ++
          String.intercalate ", " valid_keys))) := by
  refine ⟨fun m h => ?_, fun m h1 h2 => ?_, fun b ns sup aut extra hne hdis => ?_⟩
  · simp [parse_backend_yaml, h]
  · simp [parse_backend_yaml, h1, h2]
  · cases extra with
    | nil => exact absurd rfl hne
    | cons p es => rfl

/-- C7 witness: the three rejections at concrete manifests. -/
theorem C7_witness :
    parse_backend_yaml (σ := String) id id "backend.yaml" wGrouped []
        [("cpp_namespace", Yaml.str "torch_xla")] =
      .error (.assertError "You must provide a value for \"backend\"") ∧
    parse_backend_yaml (σ := String) id id "backend.yaml" wGrouped []
        [("backend", Yaml.str "XLA")] =
      .error (.assertError "You must provide a value for \"cpp_namespace\"") ∧
    parse_backend_yaml (σ := String) id id "backend.yaml" wGrouped []
        (mkManifest "XLA" "torch_xla" (.list []) (.list []) ++
          [("unknown_field", Yaml.int 3)]) =
      .error (.assertError ("backend.yaml contains unexpected keys: unknown_field" ++
        ". Only the following keys are supported: backend, cpp_namespace, supported, autograd")) := by
  obtain ⟨h1, h2, h3⟩ := C7_manifest_schema_validation (σ := String) id id "backend.yaml" wGrouped []
  refine ⟨h1 _ (by decide), h2 _ (by decide) (by decide), ?_⟩
  have := h3 "XLA" "torch_xla" [] [] [("unknown_field", Yaml.int 3)]
    (by simp) (by decide)
  simpa using this

/-- C1: postcondition of index construction on a well-formed manifest with
all listed names resolving. An empty coverage list yields a `none`
DispatchKey and adds nothing for it (both empty: the table is returned
unchanged); a non-empty one yields its key and registers exactly one
BackendIndex whose entries are exactly the listed names, each carrying
the naming-collaborator kernel with `structured=false, external=true`,
and with `use_out_as_primary=false`; no other table entry changes. -/
theorem C1_parse_backend_yaml_postcondition {σ : Type} (fN dN : σ → String)
    (path : String) (grouped : List (GroupedItem σ)) (idx : PyDict BackendIndex)
    (b ns : String) (sup aut : List String)
    (hres : ∀ op ∈ sup ++ aut,
      (PyDict.get? (native_functions_map fN grouped) op).isSome = true)
    (hfb : PyDict.get? idx b = none)
    (hfa : PyDict.get? idx ("Autograd" ++ b) = none) :
    ∃ idx2,
      parse_backend_yaml fN dN path grouped idx
          (mkManifest b ns (opList sup) (opList aut)) =
        .ok ((if sup = [] then none else some b),
             (if aut = [] then none else some ("Autograd" ++ b)), .str ns, idx2) ∧
      (∀ dk, dk ≠ b → dk ≠ "Autograd" ++ b →
        PyDict.get? idx2 dk = PyDict.get? idx dk) ∧
      (sup = [] → aut = [] → idx2 = idx) ∧
      (sup = [] → PyDict.get? idx2 b = PyDict.get? idx b) ∧
      (aut = [] → PyDict.get? idx2 ("Autograd" ++ b) =
        PyDict.get? idx ("Autograd" ++ b)) ∧
      (sup ≠ [] → ∃ bi, PyDict.get? idx2 b = some bi ∧
        GoodIndex dN (native_functions_map fN grouped) b sup bi) ∧
      (aut ≠ [] → ∃ ai, PyDict.get? idx2 ("Autograd" ++ b) = some ai ∧
        GoodIndex dN (native_functions_map fN grouped) ("Autograd" ++ b) aut ai) := by
  obtain ⟨idx2, hreg, hpres, hempty, hemptyb, hemptya, hsup, haut⟩ :=
    register_opList_char dN (native_functions_map fN grouped) idx b sup aut hres hfb hfa
  refine ⟨idx2, ?_, hpres, hempty, hemptyb, hemptya, hsup, haut⟩
  simp only [opList] at hreg ⊢
  rw [parse_backend_yaml_mkManifest, hreg]

/-- C1 witness: a concrete manifest with `supported=[add, mul]`,
`autograd=[sub]` against the concrete registry. -/
theorem C1_witness :
    ∃ idx2,
      parse_backend_yaml (σ := String) id id "backend.yaml" wGrouped []
          (mkManifest "XLA" "torch_xla" (opList ["add", "mul"]) (opList ["sub"])) =
        .ok ((if ["add", "mul"] = ([] : List String) then none else some "XLA"),
             (if ["sub"] = ([] : List String) then none else some ("Autograd" ++ "XLA")),
             .str "torch_xla", idx2) ∧
      (∀ dk, dk ≠ "XLA" → dk ≠ "Autograd" ++ "XLA" →
        PyDict.get? idx2 dk = PyDict.get? ([] : PyDict BackendIndex) dk) ∧
      (["add", "mul"] = ([] : List String) → ["sub"] = ([] : List String) → idx2 = []) ∧
      (["add", "mul"] = ([] : List String) →
        PyDict.get? idx2 "XLA" = PyDict.get? ([] : PyDict BackendIndex) "XLA") ∧
      (["sub"] = ([] : List String) → PyDict.get? idx2 ("Autograd" ++ "XLA") =
        PyDict.get? ([] : PyDict BackendIndex) ("Autograd" ++ "XLA")) ∧
      (["add", "mul"] ≠ ([] : List String) → ∃ bi, PyDict.get? idx2 "XLA" = some bi ∧
        GoodIndex id (native_functions_map id wGrouped) "XLA" ["add", "mul"] bi) ∧
      (["sub"] ≠ ([] : List String) → ∃ ai, PyDict.get? idx2 ("Autograd" ++ "XLA") = some ai ∧
        GoodIndex id (native_functions_map id wGrouped) ("Autograd" ++ "XLA") ["sub"] ai) :=
  C1_parse_backend_yaml_postcondition id id "backend.yaml" wGrouped []
    "XLA" "torch_xla" ["add", "mul"] ["sub"] (by decide) rfl rfl

theorem add_err_of_meta {σ : Type} (dN : σ → String)
    (nfMap : PyDict (NativeFunction σ)) (idx1 : PyDict BackendIndex)
    (ops : List Yaml) (b : String) (auto : Bool) (e : PyError)
    (h : buildMetadata dN nfMap ops [] = .error e) :
    add_backend_index dN nfMap idx1 ops b auto = .error e := by
  simp [add_backend_index, h]

theorem register_opList_err_plain {σ : Type} (dN : σ → String)
    (nfMap : PyDict (NativeFunction σ)) (idx : PyDict BackendIndex) (b : String)
    (sup : List String) (autY : Yaml) (e : PyError)
    (hne : sup ≠ [])
    (h : add_backend_index dN nfMap idx (sup.map .str) b false = .error e) :
    register_backend_indices dN nfMap idx b (opList sup) autY = .error e := by
  cases sup with
  | nil => exact absurd rfl hne
  | cons s0 t =>
    simp only [register_backend_indices, opList, pyLen, pyElems, List.length_map,
      List.length_cons, gt_iff_lt, Nat.succ_pos, if_true]
    rw [h]
    rfl

theorem register_opList_err_autograd {σ : Type} (dN : σ → String)
    (nfMap : PyDict (NativeFunction σ)) (idx : PyDict BackendIndex) (b : String)
    (sup aut : List String) (e : PyError)
    (hne : aut ≠ [])
    (hres : ∀ op ∈ sup, (PyDict.get? nfMap op).isSome = true)
    (hfb : PyDict.get? idx b = none)
    (herr : ∀ i1 : PyDict BackendIndex,
      add_backend_index dN nfMap i1 (aut.map .str) b true = .error e) :
    register_backend_indices dN nfMap idx b (opList sup) (opList aut) = .error e := by
  cases aut with
  | nil => exact absurd rfl hne
  | cons a0 ta =>
    cases sup with
    | nil =>
      simp only [register_backend_indices, opList, pyLen, pyElems, List.length_map,
        List.map_nil, List.length_nil, gt_iff_lt, Nat.lt_irrefl, if_false,
        List.length_cons, Nat.succ_pos, if_true]
      rw [herr idx]
      rfl
    | cons s0 ts =>
      obtain ⟨dS, haddS, -, -⟩ :=
        add_backend_index_ok dN nfMap idx (s0 :: ts) b false hres (by simpa using hfb)
      simp only [register_backend_indices, opList, pyLen, pyElems, List.length_map,
        List.length_cons, gt_iff_lt, Nat.succ_pos, if_true]
      rw [haddS]
      show (match Except.map (fun r => (some r.1, r.2))
          (add_backend_index dN nfMap _ (List.map Yaml.str (a0 :: ta)) b true) with
        | Except.error e => Except.error e
        | Except.ok (autograd_key, idx2) => Except.ok (some b, autograd_key, idx2)) = _
      rw [herr _]
      rfl

theorem parse_mkManifest_err {σ : Type} (fN dN : σ → String)
    (path : String) (grouped : List (GroupedItem σ)) (idx : PyDict BackendIndex)
    (b ns : String) (sup : List Yaml) (autY : Yaml) (e : PyError)
    (h : register_backend_indices dN (native_functions_map fN grouped) idx b
      (.list sup) autY = .error e) :
    parse_backend_yaml fN dN path grouped idx (mkManifest b ns (.list sup) autY) =
      .error e := by
  rw [parse_backend_yaml_mkManifest, h]

/-- C3: when any coverage list holds an operator name with no registry
match, index construction fails with the unresolved-reference assert whose
message carries that literal name; nothing is skipped and no table is
returned. -/
theorem C3_unresolved_operator_error {σ : Type} (fN dN : σ → String)
    (path : String) (grouped : List (GroupedItem σ)) (idx : PyDict BackendIndex)
    (b ns : String) (sup aut : List String)
    (hfb : PyDict.get? idx b = none)
    (hbad : ∃ op ∈ sup ++ aut,
      PyDict.get? (native_functions_map fN grouped) op = none) :
    ∃ op msg, op ∈ sup ++ aut ∧
      PyDict.get? (native_functions_map fN grouped) op = none ∧
      parse_backend_yaml fN dN path grouped idx
          (mkManifest b ns (opList sup) (opList aut)) =
        .error (.assertError msg) ∧
      msg = "Found an invalid operator name: " ++ op := by
  by_cases hbs : ∃ op ∈ sup, PyDict.get? (native_functions_map fN grouped) op = none
  · obtain ⟨op0, hmem0, hnone0, hmeta⟩ :=
      buildMetadata_err dN (native_functions_map fN grouped) sup [] hbs
    refine ⟨op0, _, List.mem_append_left _ hmem0, hnone0, ?_, rfl⟩
    have hadd := add_err_of_meta dN (native_functions_map fN grouped) idx
      (sup.map .str) b false _ hmeta
    have hreg := register_opList_err_plain dN (native_functions_map fN grouped) idx b
      sup (opList aut) _ (List.ne_nil_of_mem hmem0) hadd
    have := parse_mkManifest_err fN dN path grouped idx b ns (sup.map .str)
      (opList aut) _ (by simpa [opList] using hreg)
    simpa [opList] using this
  · have hres : ∀ op ∈ sup,
        (PyDict.get? (native_functions_map fN grouped) op).isSome = true := by
      intro op hop
      rcases hg : PyDict.get? (native_functions_map fN grouped) op with - | f
      · exact absurd ⟨op, hop, hg⟩ hbs
      · rfl
    have hbaut : ∃ op ∈ aut,
        PyDict.get? (native_functions_map fN grouped) op = none := by
      obtain ⟨op, hop, hnone⟩ := hbad
      rcases List.mem_append.mp hop with h | h
      · exact absurd ⟨op, h, hnone⟩ hbs
      · exact ⟨op, h, hnone⟩
    obtain ⟨op0, hmem0, hnone0, hmeta⟩ :=
      buildMetadata_err dN (native_functions_map fN grouped) aut [] hbaut
    refine ⟨op0, _, List.mem_append_right _ hmem0, hnone0, ?_, rfl⟩
    have herr : ∀ i1 : PyDict BackendIndex,
        add_backend_index dN (native_functions_map fN grouped) i1
          (aut.map .str) b true =
        .error (.assertError ("Found an invalid operator name: " ++ op0)) :=
      fun i1 => add_err_of_meta dN (native_functions_map fN grouped) i1
        (aut.map .str) b true _ hmeta
    have hreg := register_opList_err_autograd dN (native_functions_map fN grouped)
      idx b sup aut _ (List.ne_nil_of_mem hmem0) hres hfb herr
    have := parse_mkManifest_err fN dN path grouped idx b ns (sup.map .str)
      (opList aut) _ (by simpa [opList] using hreg)
    simpa [opList] using this

/-- C3 witness: `autograd=[nope]` where `nope` is not in the registry. -/
theorem C3_witness :
    ∃ op msg, op ∈ ["add"] ++ ["nope"] ∧
      PyDict.get? (native_functions_map id wGrouped) op = none ∧
      parse_backend_yaml (σ := String) id id "backend.yaml" wGrouped []
          (mkManifest "XLA" "torch_xla" (opList ["add"]) (opList ["nope"])) =
        .error (.assertError msg) ∧
      msg = "Found an invalid operator name: " ++ op :=
  C3_unresolved_operator_error id id "backend.yaml" wGrouped [] "XLA" "torch_xla"
    ["add"] ["nope"] rfl (by decide)

/-- C8: registering under a DispatchKey already present in the shared
table (a built-in key or one registered earlier in the run) hits the bare
`assert backend_key not in backend_indices` and aborts; no updated table
is ever produced, so the existing entry is not overwritten. -/
theorem C8_duplicate_dispatch_key {σ : Type} (dN : σ → String)
    (nfMap : PyDict (NativeFunction σ)) (idx : PyDict BackendIndex)
    (ops : List String) (b : String) (auto : Bool)
    (hres : ∀ op ∈ ops, (PyDict.get? nfMap op).isSome = true)
    (hdup : (PyDict.get? idx (if auto then "Autograd" ++ b else b)).isSome = true) :
    add_backend_index dN nfMap idx (ops.map .str) b auto = .error (.assertError "") ∧
    ∀ k (idx2 : PyDict BackendIndex),
      add_backend_index dN nfMap idx (ops.map .str) b auto ≠ .ok (k, idx2) := by
  have h := add_backend_index_dup dN nfMap idx ops b auto hres hdup
  exact ⟨h, fun k idx2 hk => by rw [h] at hk; cases hk⟩

/-- C8 witness: the table already holds the key `XLA` (as if registered
earlier in the same process); registering the same backend again fails. -/
theorem C8_witness :
    add_backend_index (σ := String) id
        (native_functions_map id wGrouped)
        [("XLA", ⟨"XLA", false, [("add", ⟨"add", false, true⟩)]⟩)]
        (["add"].map .str) "XLA" false = .error (.assertError "") ∧
    ∀ k (idx2 : PyDict BackendIndex),
      add_backend_index (σ := String) id
        (native_functions_map id wGrouped)
        [("XLA", ⟨"XLA", false, [("add", ⟨"add", false, true⟩)]⟩)]
        (["add"].map .str) "XLA" false ≠ .ok (k, idx2) :=
  C8_duplicate_dispatch_key id (native_functions_map id wGrouped)
    [("XLA", ⟨"XLA", false, [("add", ⟨"add", false, true⟩)]⟩)]
    ["add"] "XLA" false (by decide) (by decide)

/-- C10: listing a resolvable operator name twice in one coverage list is
accepted, produces the very same result as listing it once, and the
registered index holds exactly one entry for that name with the same
metadata as the single listing. -/
theorem C10_duplicate_op_name {σ : Type} (dN : σ → String)
    (nfMap : PyDict (NativeFunction σ)) (idx : PyDict BackendIndex)
    (sups : List String) (op : String) (b : String) (auto : Bool)
    (hmem : op ∈ sups)
    (hres : ∀ o ∈ sups, (PyDict.get? nfMap o).isSome = true)
    (hfresh : PyDict.get? idx (if auto then "Autograd" ++ b else b) = none) :
    add_backend_index dN nfMap idx ((sups ++ [op]).map .str) b auto =
      add_backend_index dN nfMap idx (sups.map .str) b auto ∧
    ∃ key idx2 bi,
      add_backend_index dN nfMap idx ((sups ++ [op]).map .str) b auto =
        .ok (key, idx2) ∧
      PyDict.get? idx2 key = some bi ∧
      (PyDict.keys bi.index).count op = 1 ∧
      ∃ f, PyDict.get? nfMap op = some f ∧
        PyDict.get? bi.index op = some (mkMeta dN f) := by
  obtain ⟨d, hd, hchar, hnd⟩ := buildMetadata_ok_char dN nfMap sups [] hres
  have hndd : (PyDict.keys d).Nodup := hnd (by simp [PyDict.keys])
  obtain ⟨f, hf⟩ := Option.isSome_iff_exists.mp (hres op hmem)
  have hdop : PyDict.get? d op = some (mkMeta dN f) := by
    rw [hchar op, if_pos hmem, hf]
    rfl
  have hins := PyDict.insert_eq_self d op (mkMeta dN f) hndd hdop
  simp only [mkMeta] at hins
  have hmeta2 : buildMetadata dN nfMap (List.map Yaml.str sups ++ [Yaml.str op]) [] =
      .ok d := by
    rw [buildMetadata_append, hd]
    simp only [buildMetadata, opAsStr, hf]
    rw [hins]
  have heq : add_backend_index dN nfMap idx ((sups ++ [op]).map .str) b auto =
      add_backend_index dN nfMap idx (sups.map .str) b auto := by
    simp [add_backend_index, hmeta2, hd]
  refine ⟨heq, (if auto then "Autograd" ++ b else b),
    PyDict.insert idx (if auto then "Autograd" ++ b else b)
      ⟨(if auto then "Autograd" ++ b else b), false, d⟩,
    ⟨(if auto then "Autograd" ++ b else b), false, d⟩, ?_,
    PyDict.get?_insert_self _ _ _,
    PyDict.count_keys_eq_one d op hndd (by rw [hdop]; rfl), f, hf, hdop⟩
  rw [heq]
  simp [add_backend_index, hd, PyDict.contains, hfresh]

/-- C10 witness: `supported=[add, mul, add]` behaves as `[add, mul]`. -/
theorem C10_witness :
    add_backend_index (σ := String) id (native_functions_map id wGrouped) []
        ((["add", "mul"] ++ ["add"]).map .str) "XLA" false =
      add_backend_index (σ := String) id (native_functions_map id wGrouped) []
        (["add", "mul"].map .str) "XLA" false ∧
    ∃ key idx2 bi,
      add_backend_index (σ := String) id (native_functions_map id wGrouped) []
          ((["add", "mul"] ++ ["add"]).map .str) "XLA" false = .ok (key, idx2) ∧
      PyDict.get? idx2 key = some bi ∧
      (PyDict.keys bi.index).count "add" = 1 ∧
      ∃ f, PyDict.get? (native_functions_map id wGrouped) "add" = some f ∧
        PyDict.get? bi.index "add" = some (mkMeta id f) :=
  C10_duplicate_op_name id (native_functions_map id wGrouped) []
    ["add", "mul"] "add" "XLA" false (by decide) (by decide) rfl

/-- C6: the three artifacts are produced exactly when index construction
returned both a plain and an autograd DispatchKey; when either is absent
`run` writes nothing. -/
theorem C6_generation_gating {σ : Type} (fN dN : σ → String)
    (computeDecl : GroupedItem σ → BackendIndex → List String)
    (genFallback : Target → BackendIndex → GroupedItem σ → List String)
    (setToList : List String → List String) (path : String)
    (grouped : List (GroupedItem σ)) (idx0 : PyDict BackendIndex) (m : PyDict Yaml)
    (bko ako : Option String) (ns : Yaml) (idx2 : PyDict BackendIndex)
    (hp : parse_backend_yaml fN dN path grouped idx0 m = .ok (bko, ako, ns, idx2)) :
    (∃ a, run fN dN computeDecl genFallback setToList path grouped idx0 m =
      .ok (some a)) ↔ (bko.isSome = true ∧ ako.isSome = true) := by
  constructor
  · rintro ⟨a, ha⟩
    obtain ⟨bk, ak, ns2, i2, bIdx, aIdx, hp2, -, -, -⟩ :=
      run_ok_inv fN dN computeDecl genFallback setToList path grouped idx0 m a ha
    rw [hp] at hp2
    simp only [Except.ok.injEq, Prod.mk.injEq] at hp2
    obtain ⟨h1, h2, -, -⟩ := hp2
    rw [h1, h2]
    exact ⟨rfl, rfl⟩
  · rintro ⟨hb, ha⟩
    obtain ⟨bk, hbk⟩ := Option.isSome_iff_exists.mp hb
    obtain ⟨ak, hak⟩ := Option.isSome_iff_exists.mp ha
    subst hbk
    subst hak
    obtain ⟨hkb, hka⟩ := parse_ok_keys fN dN path grouped idx0 m _ _ ns idx2 hp
    obtain ⟨bIdx, hbI⟩ := Option.isSome_iff_exists.mp (hkb bk rfl)
    obtain ⟨aIdx, haI⟩ := Option.isSome_iff_exists.mp (hka ak rfl)
    exact ⟨_, run_eq_of_parse fN dN computeDecl genFallback setToList path grouped
      idx0 m bk ak ns idx2 bIdx aIdx hp hbI haI⟩

/-- C6 witness: with the concrete manifest both keys are produced and an
artifact record exists; the applied direction is the right-to-left one. -/
theorem C6_witness :
    ∃ a, run (σ := String) id id wCDecl wGFall dedupFirst "backend.yaml"
      wGrouped [] wManifest = .ok (some a) :=
  (C6_generation_gating id id wCDecl wGFall dedupFirst "backend.yaml" wGrouped []
    wManifest (some "XLA") (some "AutogradXLA") (.str "torch_xla")
    [("XLA", ⟨"XLA", false, [("add", ⟨"add", false, true⟩), ("mul", ⟨"mul", false, true⟩)]⟩),
     ("AutogradXLA", ⟨"AutogradXLA", false, [("sub", ⟨"sub", false, true⟩)]⟩)]
    rfl).mpr ⟨rfl, rfl⟩

/-- C4: the declaration header is the registry-ordered concatenation of
per-group blocks; each block lists, without duplicates, exactly the
declarations the plain and the autograd index produce for that group, so
a declaration produced identically by both indices appears exactly once
in its block. -/
theorem C4_declaration_dedup {σ : Type} (fN dN : σ → String)
    (computeDecl : GroupedItem σ → BackendIndex → List String)
    (genFallback : Target → BackendIndex → GroupedItem σ → List String)
    (setToList : List String → List String) (path : String)
    (grouped : List (GroupedItem σ)) (idx0 : PyDict BackendIndex) (m : PyDict Yaml)
    (a : Artifacts)
    (hset : SetIterOk setToList)
    (h : run fN dN computeDecl genFallback setToList path grouped idx0 m =
      .ok (some a)) :
    ∃ bk ak ns idx2 bIdx aIdx,
      parse_backend_yaml fN dN path grouped idx0 m = .ok (some bk, some ak, ns, idx2) ∧
      PyDict.get? idx2 bk = some bIdx ∧ PyDict.get? idx2 ak = some aIdx ∧
      a.dispatch_xla_declarations = concatMap (fun f =>
        setToList (computeDecl f bIdx ++ computeDecl f aIdx)) grouped ∧
      (∀ f : GroupedItem σ,
        (setToList (computeDecl f bIdx ++ computeDecl f aIdx)).Nodup) ∧
      (∀ (f : GroupedItem σ) (s : String),
        s ∈ setToList (computeDecl f bIdx ++ computeDecl f aIdx) ↔
          (s ∈ computeDecl f bIdx ∨ s ∈ computeDecl f aIdx)) ∧
      (∀ (f : GroupedItem σ) (s : String),
        s ∈ computeDecl f bIdx → s ∈ computeDecl f aIdx →
          (setToList (computeDecl f bIdx ++ computeDecl f aIdx)).count s = 1) := by
  obtain ⟨bk, ak, ns, idx2, bIdx, aIdx, hp, hb, ha, hmk⟩ :=
    run_ok_inv fN dN computeDecl genFallback setToList path grouped idx0 m a h
  refine ⟨bk, ak, ns, idx2, bIdx, aIdx, hp, hb, ha, ?_, ?_, ?_, ?_⟩
  · rw [hmk]
    simp [mkArtifacts, concatMap]
  · intro f
    exact (hset _).1
  · intro f s
    rw [(hset _).2 s, List.mem_append]
  · intro f s hsb _
    exact List.count_eq_one_of_mem (hset _).1
      (((hset _).2 s).mpr (List.mem_append.mpr (Or.inl hsb)))

/-- C4 witness. -/
theorem C4_witness :
    ∃ bk ak ns idx2 bIdx aIdx,
      parse_backend_yaml (σ := String) id id "backend.yaml" wGrouped [] wManifest =
        .ok (some bk, some ak, ns, idx2) ∧
      PyDict.get? idx2 bk = some bIdx ∧ PyDict.get? idx2 ak = some aIdx ∧
      (xlaDeclsOf (run (σ := String) id id wCDecl wGFall dedupFirst "backend.yaml"
        wGrouped [] wManifest)) = concatMap (fun f =>
          dedupFirst (wCDecl f bIdx ++ wCDecl f aIdx)) wGrouped ∧
      (∀ (f : GroupedItem String) (s : String),
        s ∈ wCDecl f bIdx → s ∈ wCDecl f aIdx →
          (dedupFirst (wCDecl f bIdx ++ wCDecl f aIdx)).count s = 1) := by
  obtain ⟨bk, ak, ns, idx2, bIdx, aIdx, hp, hb, ha, hxla, -, -, hcount⟩ :=
    C4_declaration_dedup id id wCDecl wGFall dedupFirst "backend.yaml" wGrouped []
      wManifest _ setIterOk_dedupFirst rfl
  exact ⟨bk, ak, ns, idx2, bIdx, aIdx, hp, hb, ha, by rw [← hxla]; rfl, hcount⟩

/-- C5: the fallback declaration and definition outputs are each a single
set-deduplicated union of the per-index results (each line present iff
either index produces it, and never twice), while the registration output
stays as two separate per-index lists, equal to the raw per-index
concatenations with no union applied between them. -/
theorem C5_fallback_union_and_registrations {σ : Type} (fN dN : σ → String)
    (computeDecl : GroupedItem σ → BackendIndex → List String)
    (genFallback : Target → BackendIndex → GroupedItem σ → List String)
    (setToList : List String → List String) (path : String)
    (grouped : List (GroupedItem σ)) (idx0 : PyDict BackendIndex) (m : PyDict Yaml)
    (a : Artifacts)
    (hset : SetIterOk setToList)
    (h : run fN dN computeDecl genFallback setToList path grouped idx0 m =
      .ok (some a)) :
    ∃ bk ak ns idx2 bIdx aIdx,
      parse_backend_yaml fN dN path grouped idx0 m = .ok (some bk, some ak, ns, idx2) ∧
      PyDict.get? idx2 bk = some bIdx ∧ PyDict.get? idx2 ak = some aIdx ∧
      a.dispatch_aten_fallback_declarations.Nodup ∧
      (∀ s, s ∈ a.dispatch_aten_fallback_declarations ↔
        (s ∈ concatMap (genFallback .NAMESPACED_DECLARATION bIdx) grouped ∨
         s ∈ concatMap (genFallback .NAMESPACED_DECLARATION aIdx) grouped)) ∧
      a.dispatch_aten_fallback_definitions.Nodup ∧
      (∀ s, s ∈ a.dispatch_aten_fallback_definitions ↔
        (s ∈ concatMap (genFallback .NAMESPACED_DEFINITION bIdx) grouped ∨
         s ∈ concatMap (genFallback .NAMESPACED_DEFINITION aIdx) grouped)) ∧
      a.dispatch_registrations =
        concatMap (genFallback .REGISTRATION bIdx) grouped ∧
      a.dispatch_autograd_registrations =
        concatMap (genFallback .REGISTRATION aIdx) grouped := by
  obtain ⟨bk, ak, ns, idx2, bIdx, aIdx, hp, hb, ha, hmk⟩ :=
    run_ok_inv fN dN computeDecl genFallback setToList path grouped idx0 m a h
  subst hmk
  refine ⟨bk, ak, ns, idx2, bIdx, aIdx, hp, hb, ha, (hset _).1, ?_, (hset _).1, ?_,
    rfl, rfl⟩
  · intro s
    rw [show (mkArtifacts computeDecl genFallback setToList grouped ns bIdx
        aIdx).dispatch_aten_fallback_declarations = setToList
        (concatMap (genFallback .NAMESPACED_DECLARATION bIdx) grouped ++
         concatMap (genFallback .NAMESPACED_DECLARATION aIdx) grouped) from rfl]
    rw [(hset _).2 s, List.mem_append]
  · intro s
    rw [show (mkArtifacts computeDecl genFallback setToList grouped ns bIdx
        aIdx).dispatch_aten_fallback_definitions = setToList
        (concatMap (genFallback .NAMESPACED_DEFINITION bIdx) grouped ++
         concatMap (genFallback .NAMESPACED_DEFINITION aIdx) grouped) from rfl]
    rw [(hset _).2 s, List.mem_append]

/-- C5 witness. -/
theorem C5_witness :
    ∃ bk ak ns idx2 bIdx aIdx,
      parse_backend_yaml (σ := String) id id "backend.yaml" wGrouped [] wManifest =
        .ok (some bk, some ak, ns, idx2) ∧
      PyDict.get? idx2 bk = some bIdx ∧ PyDict.get? idx2 ak = some aIdx ∧
      (fallbackDeclsOf (run (σ := String) id id wCDecl wGFall dedupFirst
        "backend.yaml" wGrouped [] wManifest)).Nodup ∧
      registrationsOf (run (σ := String) id id wCDecl wGFall dedupFirst
        "backend.yaml" wGrouped [] wManifest) =
        concatMap (wGFall .REGISTRATION bIdx) wGrouped := by
  obtain ⟨bk, ak, ns, idx2, bIdx, aIdx, hp, hb, ha, hnd, -, -, -, hreg, -⟩ :=
    C5_fallback_union_and_registrations id id wCDecl wGFall dedupFirst
      "backend.yaml" wGrouped [] wManifest _ setIterOk_dedupFirst rfl
  exact ⟨bk, ak, ns, idx2, bIdx, aIdx, hp, hb, ha, hnd, by rw [← hreg]; rfl⟩

/-- C2 counterexample: two legitimate set-iteration orders (CPython does
not pin one down across processes) drive `run` to different artifact
text on the same input, so generation is not independent of
unordered-collection iteration order. -/
theorem C2_order_dependence :
    ∃ s1 s2 : List String → List String, SetIterOk s1 ∧ SetIterOk s2 ∧
      run (σ := String) id id wCDecl wGFall s1 "backend.yaml" wGrouped [] wManifest ≠
      run (σ := String) id id wCDecl wGFall s2 "backend.yaml" wGrouped [] wManifest := by
  refine ⟨dedupFirst, revDedup, setIterOk_dedupFirst, setIterOk_revDedup, fun h => ?_⟩
  have h2 := congrArg xlaDeclsOf h
  revert h2
  decide

/-- C2 amended: for a fixed set-iteration order generation is a pure
function of its inputs, and across any two valid orders the runs agree on
errors, on skipping, on both registration lists byte for byte, and on the
set-deduplicated lists up to permutation (same lines, each exactly once);
only the order inside those deduplicated lists may differ. -/
theorem C2_amended_content_determinism {σ : Type} (fN dN : σ → String)
    (computeDecl : GroupedItem σ → BackendIndex → List String)
    (genFallback : Target → BackendIndex → GroupedItem σ → List String)
    (s1 s2 : List String → List String)
    (hs1 : SetIterOk s1) (hs2 : SetIterOk s2)
    (path : String) (grouped : List (GroupedItem σ))
    (idx0 : PyDict BackendIndex) (m : PyDict Yaml) :
    RunEquiv (run fN dN computeDecl genFallback s1 path grouped idx0 m)
             (run fN dN computeDecl genFallback s2 path grouped idx0 m) := by
  unfold run
  cases hp : parse_backend_yaml fN dN path grouped idx0 m with
  | error e => simp [RunEquiv]
  | ok r =>
    obtain ⟨bko, ako, ns, idx2⟩ := r
    cases bko with
    | none => simp [RunEquiv]
    | some bk =>
      cases ako with
      | none => simp [RunEquiv]
      | some ak =>
        cases hb : PyDict.get? idx2 bk with
        | none => simp [RunEquiv, hb]
        | some bIdx =>
          cases ha : PyDict.get? idx2 ak with
          | none => simp [RunEquiv, hb, ha]
          | some aIdx =>
            simp only [hb, ha]
            exact ⟨rfl, rfl,
              concatMap_perm _ _ _ (fun f _ => setIterOk_perm hs1 hs2 _),
              setIterOk_perm hs1 hs2 _, setIterOk_perm hs1 hs2 _, rfl, rfl⟩

/-- C2 amended witness: the two concrete orders from the counterexample
still agree on content. -/
theorem C2_amended_witness :
    RunEquiv (run (σ := String) id id wCDecl wGFall dedupFirst "backend.yaml"
        wGrouped [] wManifest)
      (run (σ := String) id id wCDecl wGFall revDedup "backend.yaml"
        wGrouped [] wManifest) :=
  C2_amended_content_determinism id id wCDecl wGFall dedupFirst revDedup
    setIterOk_dedupFirst setIterOk_revDedup "backend.yaml" wGrouped [] wManifest
